import Mathlib

/-!
Verification development for the RxOnly front-end message module
(`src/rxonly/web/static/js/messages.js`, `rxonly.js`, `views.js`).

The JavaScript is shallowly embedded: DOM state that the code reads and
writes (the `#messages-list` items, each parent's tapback container and its
`data-tapbacks` dataset, the pending-tapback map, read marks) is modelled as
explicit data, and every operation is a pure function from that state and
the fetched page to the next state.  Message text is modelled as its list of
grapheme clusters after trimming; each cluster carries the result of the
`/\p{Extended_Pictographic}/u` test the source applies to it, since the
claims depend only on cluster count, cluster identity and that test result.
-/

namespace RxOnly

/-- One grapheme cluster of a (trimmed) message text, as produced by
`Intl.Segmenter` in `is_emoji_only`, together with the result of testing the
cluster against the Extended_Pictographic pattern. -/
structure Grapheme where
  cluster : Char
  pictographic : Bool
deriving DecidableEq, Repr

/-- A message row as returned by the API: storage id, public `message_id`,
receive timestamp, optional `reply_to` parent id, and (trimmed, segmented)
text. -/
structure Msg where
  id : Nat
  message_id : Nat
  rx_time : Nat
  reply_to : Option Nat
  text : List Grapheme
deriving DecidableEq, Repr

/-- Embeds `is_emoji_only` (messages.js:37): the trimmed text must consist of
1 to 3 grapheme clusters, each matching Extended_Pictographic. -/
def is_emoji_only (t : List Grapheme) : Bool :=
  decide (1 ≤ t.length) && decide (t.length ≤ 3) && t.all (fun g => g.pictographic)

/-- Embeds `is_tapback` (messages.js:65): a reply whose text is emoji-only. -/
def is_tapback (m : Msg) : Bool :=
  m.reply_to.isSome && is_emoji_only m.text

/-- A rendered tapback pill.  `individual` pills (created by
`create_tapback_pill`, messages.js:94) carry a `data-tapback-id` attribute;
`grouped` pills (created by `create_grouped_tapback`, messages.js:121) carry
no such attribute, only the emoji and a count. -/
inductive Pill
  | individual (message_id : Nat) (emoji : List Grapheme)
  | grouped (emoji : List Grapheme) (count : Nat)
deriving DecidableEq, Repr

/-- Number of reactions a pill stands for: 1 for an individual pill, the
group size for a grouped count pill. -/
def pill_ref : Pill → Nat
  | Pill.individual _ _ => 1
  | Pill.grouped _ c => c

/-- Total number of reactions referenced by a list of pills. -/
def pill_ref_total (ps : List Pill) : Nat :=
  (ps.map pill_ref).sum

/-- Whether a pill is a collapsed grouped-count pill. -/
def is_grouped : Pill → Bool
  | Pill.individual _ _ => false
  | Pill.grouped _ _ => true

/-- The `data-tapback-id` values present on a list of rendered pills: only
individual pills carry one. -/
def individual_ids (ps : List Pill) : List Nat :=
  ps.filterMap (fun p => match p with
    | Pill.individual mid _ => some mid
    | Pill.grouped _ _ => none)

/-- Stable insertion of a message into a list sorted by ascending `rx_time`;
an element with an equal key is placed after the existing ones, matching a
stable comparator sort. -/
def insert_by_rx (m : Msg) : List Msg → List Msg
  | [] => [m]
  | x :: xs => if m.rx_time < x.rx_time then m :: x :: xs else x :: insert_by_rx m xs

/-- Embeds the `tapbacks.sort` call of `render_tapbacks` (messages.js:158):
a stable sort by ascending `rx_time` (`Array.prototype.sort` is stable). -/
def sort_by_rx (l : List Msg) : List Msg :=
  l.foldl (fun acc m => insert_by_rx m acc) []

/-- Insert a tapback into the per-emoji association list: append to the
first entry with the same key, or add a new key at the end, matching the
insertion order of a JavaScript `Map`. -/
def group_insert : List (List Grapheme × List Msg) → List Grapheme → Msg →
    List (List Grapheme × List Msg)
  | [], k, m => [(k, [m])]
  | (k', ms) :: rest, k, m =>
    if k' = k then (k', ms ++ [m]) :: rest
    else (k', ms) :: group_insert rest k m

/-- Embeds the grouping loop of `render_tapbacks` (messages.js:163-170):
group the sorted tapbacks by their (trimmed) emoji text, keys in order of
first occurrence. -/
def group_by_emoji (ts : List Msg) : List (List Grapheme × List Msg) :=
  ts.foldl (fun gs t => group_insert gs t.text t) []

/-- Size of the group stored under a key in the per-emoji association list
(0 when the key is absent); reads the first matching entry, like `Map.get`. -/
def glen (k : List Grapheme) : List (List Grapheme × List Msg) → Nat
  | [] => 0
  | (k', ms) :: rest => if k' = k then ms.length else glen k rest

/-- Embeds the pill-building loop of `render_tapbacks` (messages.js:176-186):
a group with more than 5 members collapses into one grouped count pill,
otherwise each member becomes an individual pill. -/
def build_pills : List (List Grapheme × List Msg) → List Pill
  | [] => []
  | e :: rest =>
    (if 5 < e.2.length then [Pill.grouped e.1 e.2.length]
     else e.2.map (fun t => Pill.individual t.message_id t.text)) ++ build_pills rest

/-- The rendered content of a tapback container: the pills actually appended
and the `+N more` overflow indicator, if any. -/
structure TapbackRender where
  visible : List Pill
  overflow : Option Nat
deriving DecidableEq, Repr

/-- Embeds `render_tapbacks` (messages.js:152-202): sort by `rx_time`, group
by emoji, build pills, cap at `max_pills = 10`, and append a `+N more`
indicator with `N = pills.length - max_pills` when positive. -/
def render_tapbacks (ts : List Msg) : TapbackRender :=
  let sorted := sort_by_rx ts
  let pills := build_pills (group_by_emoji sorted)
  if 10 < pills.length then
    { visible := pills.take 10, overflow := some (pills.length - 10) }
  else
    { visible := pills, overflow := none }

/-- The materialized `#messages-list` view and its side stores:
`items` are the primary `<li>` rows in list order; `tapdata` maps a parent
`message_id` to the `data-tapbacks` dataset of its tapback container (the
container itself always shows `render_tapbacks` of that dataset);
`pending` is the `pending_tapbacks` map (messages.js:29); `read_ids` are the
`message_id`s carrying the `message-read` class. -/
structure Window where
  items : List Msg
  tapdata : List (Nat × List Msg)
  pending : List (Nat × List Msg)
  read_ids : List Nat
deriving DecidableEq, Repr

/-- The empty messages list, fresh tapback state. -/
def empty_window : Window :=
  { items := [], tapdata := [], pending := [], read_ids := [] }

/-- Lookup in an association list keyed by parent id, defaulting to the
empty collection (a missing container has no stored dataset). -/
def assoc_get (l : List (Nat × List Msg)) (k : Nat) : List Msg :=
  match l with
  | [] => []
  | (k', v) :: rest => if k' = k then v else assoc_get rest k

/-- Store a value under a key, replacing the first existing entry in place
or appending a new entry at the end (JavaScript `Map` insertion order). -/
def assoc_set (l : List (Nat × List Msg)) (k : Nat) (v : List Msg) :
    List (Nat × List Msg) :=
  match l with
  | [] => [(k, v)]
  | (k', v') :: rest => if k' = k then (k, v) :: rest else (k', v') :: assoc_set rest k v

/-- Embeds `mark_message_read` (rxonly.js:657): add the `message-read` class
if not already present. -/
def mark_message_read (w : Window) (mid : Nat) : Window :=
  if mid ∈ w.read_ids then w else { w with read_ids := w.read_ids ++ [mid] }

/-- Embeds `store_pending_tapback` (messages.js:80): push the tapback onto
the pending list keyed by its `reply_to` parent id. -/
def store_pending_tapback (w : Window) (t : Msg) : Window :=
  let pid := t.reply_to.getD 0
  { w with pending := assoc_set w.pending pid (assoc_get w.pending pid ++ [t]) }

/-- Embeds `attach_tapback_to_parent` (messages.js:210-253).  If the parent
row is absent, report failure.  Otherwise read the `data-tapback-id`s of the
currently rendered pills (only individual pills among the visible ones carry
that attribute); a matching id is a no-op, else the tapback is appended to
the container's `data-tapbacks` dataset, which is then re-rendered. -/
def attach_tapback_to_parent (w : Window) (t : Msg) : Window × Bool :=
  let pid := t.reply_to.getD 0
  if w.items.any (fun m => decide (m.message_id = pid)) then
    let all := assoc_get w.tapdata pid
    let existing := individual_ids (render_tapbacks all).visible
    if t.message_id ∈ existing then (w, true)
    else ({ w with tapdata := assoc_set w.tapdata pid (all ++ [t]) }, true)
  else (w, false)

/-- The per-tapback step of the merge loops (messages.js:421-425 and
471-476): attach the tapback, storing it as pending when its parent is not
yet materialized. -/
def merge_tapback_step (wa : Window) (t : Msg) : Window :=
  let r := attach_tapback_to_parent wa t
  if r.2 then r.1 else store_pending_tapback r.1 t

/-- One iteration of the `pending_tapbacks.forEach` loop in
`flush_pending_tapbacks` (messages.js:265-275): when the entry's parent is
present, attach each queued tapback and record the parent id as resolved. -/
def flush_step (acc : Window × List Nat) (entry : Nat × List Msg) :
    Window × List Nat :=
  if acc.1.items.any (fun m => decide (m.message_id = entry.1)) then
    (entry.2.foldl (fun w2 t => (attach_tapback_to_parent w2 t).1) acc.1,
     acc.2 ++ [entry.1])
  else acc

/-- Embeds `flush_pending_tapbacks` (messages.js:260-281): for every pending
parent id now present in the list, attach the queued tapbacks in order, then
delete the resolved keys. -/
def flush_pending_tapbacks (w : Window) : Window :=
  let fold := w.pending.foldl flush_step (w, [])
  { fold.1 with pending := fold.1.pending.filter (fun e => decide (e.1 ∉ fold.2)) }

/-- Embeds `append_messages_to_list` (messages.js:400-429): split the page
into primary messages and tapbacks, append the primary rows at the bottom in
page order (with no duplicate check), attach each tapback (storing it as
pending when its parent is absent), then flush the pending map. -/
def append_messages_to_list (w : Window) (page : List Msg) : Window :=
  let normal := page.filter (fun m => !is_tapback m)
  let taps := page.filter (fun m => is_tapback m)
  let w1 := { w with items := w.items ++ normal }
  let w2 := taps.foldl merge_tapback_step w1
  flush_pending_tapbacks w2

/-- Embeds `prepend_messages_to_list` (messages.js:438-491): like append but
the primary rows are inserted before the existing content and every
prepended row is marked read; the scroll-height compensation is visual only
and not modelled. -/
def prepend_messages_to_list (w : Window) (page : List Msg) : Window :=
  let normal := page.filter (fun m => !is_tapback m)
  let taps := page.filter (fun m => is_tapback m)
  let w1 := { w with items := normal ++ w.items }
  let w2 := normal.foldl (fun wa m => mark_message_read wa m.message_id) w1
  let w3 := taps.foldl merge_tapback_step w2
  flush_pending_tapbacks w3

/-- The `meta` object of a paged API response. -/
structure Meta where
  has_more_older : Bool
  has_more_newer : Bool
  total : Nat
deriving DecidableEq, Repr

/-- One successful `fetch_message_page` response: `meta` plus the page of
entries in ascending `(rx_time, id)` order (the `messages` or
`direct_messages` array). -/
structure FetchResult where
  meta : Meta
  page : List Msg
deriving DecidableEq, Repr

/-- The per-conversation pagination fields of `app_state` (rxonly.js:61-70)
together with the materialized window they describe. -/
structure AppState where
  messages_is_loading : Bool
  messages_has_more_older : Bool
  messages_has_more_newer : Bool
  messages_oldest_rx_time : Option Nat
  messages_oldest_id : Option Nat
  messages_newest_rx_time : Option Nat
  messages_newest_id : Option Nat
  messages_total : Nat
  window : Window
deriving DecidableEq, Repr

/-- JavaScript `a < b` where `b` may be `null` (which coerces to 0, so the
comparison is false for non-negative `a`). -/
def js_lt_opt (a : Nat) (b : Option Nat) : Bool :=
  match b with
  | some x => decide (a < x)
  | none => false

/-- JavaScript `a > b` where `b` may be `null` (which coerces to 0). -/
def js_gt_opt (a : Nat) (b : Option Nat) : Bool :=
  match b with
  | some x => decide (x < a)
  | none => decide (0 < a)

/-- Embeds `update_message_cursors` (rxonly.js:823-845): refresh the
`has_more` flags and total from `meta`; when the page is non-empty, move the
oldest cursor to the page's first entry only if that entry is strictly older
by `(rx_time, id)`, and the newest cursor to the last entry only if strictly
newer. -/
def update_message_cursors (s : AppState) (data : FetchResult) : AppState :=
  let s1 := { s with
    messages_has_more_older := data.meta.has_more_older
    messages_has_more_newer := data.meta.has_more_newer
    messages_total := data.meta.total }
  match data.page.head?, data.page.getLast? with
  | some first, some last =>
    let upd_old : Bool :=
      s1.messages_oldest_rx_time.isNone ||
      js_lt_opt first.rx_time s1.messages_oldest_rx_time ||
      (s1.messages_oldest_rx_time == some first.rx_time &&
       js_lt_opt first.id s1.messages_oldest_id)
    let s2 :=
      if upd_old then
        { s1 with
          messages_oldest_rx_time := some first.rx_time
          messages_oldest_id := some first.id }
      else s1
    let upd_new : Bool :=
      s2.messages_newest_rx_time.isNone ||
      js_gt_opt last.rx_time s2.messages_newest_rx_time ||
      (s2.messages_newest_rx_time == some last.rx_time &&
       js_gt_opt last.id s2.messages_newest_id)
    if upd_new then
      { s2 with
        messages_newest_rx_time := some last.rx_time
        messages_newest_id := some last.id }
    else s2
  | _, _ => s1

/-- Embeds `load_older_messages` (messages.js:914-955) as one atomic step,
taking the fetched response as input: the guards return the state unchanged;
a non-empty page updates `has_more_older`, overwrites the oldest cursors
with the page's first entry unconditionally, and prepends the page; an empty
page only clears `has_more_older`. -/
def load_older_messages (s : AppState) (data : FetchResult) : AppState :=
  if s.messages_is_loading || !s.messages_has_more_older then s
  else if s.messages_oldest_rx_time.isNone then s
  else
    match data.page.head? with
    | some first =>
      { s with
        messages_has_more_older := data.meta.has_more_older
        messages_oldest_rx_time := some first.rx_time
        messages_oldest_id := some first.id
        window := prepend_messages_to_list s.window data.page }
    | none => { s with messages_has_more_older := false }

/-- Embeds `load_newer_messages` (messages.js:961-1001) as one atomic step:
a non-empty page updates `has_more_newer`, overwrites the newest cursors
with the page's last entry unconditionally, and appends the page; an empty
page only clears `has_more_newer`. -/
def load_newer_messages (s : AppState) (data : FetchResult) : AppState :=
  if s.messages_is_loading || !s.messages_has_more_newer then s
  else if s.messages_newest_rx_time.isNone then s
  else
    match data.page.getLast? with
    | some last =>
      { s with
        messages_has_more_newer := data.meta.has_more_newer
        messages_newest_rx_time := some last.rx_time
        messages_newest_id := some last.id
        window := append_messages_to_list s.window data.page }
    | none => { s with messages_has_more_newer := false }

/-- The guard prefix of `load_older_messages` (messages.js:915-921), run
before its `await`: `none` means the call returned without starting a fetch;
otherwise the returned state (with the loading flag set) is in force while
the fetch is outstanding.  The messages list is assumed present. -/
def load_older_begin (s : AppState) : Option AppState :=
  if s.messages_is_loading || !s.messages_has_more_older then none
  else if s.messages_oldest_rx_time.isNone then none
  else some { s with messages_is_loading := true }

/-- The guard prefix of `load_newer_messages` (messages.js:962-968). -/
def load_newer_begin (s : AppState) : Option AppState :=
  if s.messages_is_loading || !s.messages_has_more_newer then none
  else if s.messages_newest_rx_time.isNone then none
  else some { s with messages_is_loading := true }

/-- The guard prefix of `handle_jump_to_newest` (messages.js:855-860): bail
out while loading, else set the loading flag and clear the pending-tapback
map before the fetch. -/
def handle_jump_to_newest_begin (s : AppState) : Option AppState :=
  if s.messages_is_loading then none
  else some { s with
    messages_is_loading := true
    window := { s.window with pending := [] } }

/-- The guard prefix of the poll `update_messages_list` (views.js:350-356):
it checks the loading flag and the newest cursor but proceeds WITHOUT
setting the loading flag, so the state while its fetch is outstanding is the
state it was called in. -/
def update_messages_list_begin (s : AppState) : Option AppState :=
  if s.messages_is_loading then none
  else if s.messages_newest_rx_time.isNone then none
  else some s

/-- A persisted last-read record: `{ message_id, rx_time }` (rxonly.js:604). -/
structure ReadPos where
  message_id : Nat
  rx_time : Nat
deriving DecidableEq, Repr

/-- Strict lexicographic order on `(rx_time, id)` keys. -/
def key_lt (a b : Nat × Nat) : Prop :=
  a.1 < b.1 ∨ (a.1 = b.1 ∧ a.2 < b.2)

/-- Reflexive lexicographic order on `(rx_time, id)` keys. -/
def key_le (a b : Nat × Nat) : Prop :=
  key_lt a b ∨ a = b

instance key_lt_dec (a b : Nat × Nat) : Decidable (key_lt a b) := by
  unfold key_lt; infer_instance

instance key_le_dec (a b : Nat × Nat) : Decidable (key_le a b) := by
  unfold key_le; infer_instance

/-- Embeds the commit step of `update_read_position` (rxonly.js:641-651):
given the stored record and the candidate's `message_id` and `rx_time` (both
truthy per the `if (msg_id && rx_time)` guard), overwrite the store only
when the candidate is strictly newer by `rx_time`, then `message_id`. -/
def update_read_position (current : Option ReadPos) (msg_id rx_time : Nat) :
    Option ReadPos :=
  if msg_id ≠ 0 ∧ rx_time ≠ 0 then
    match current with
    | none => some { message_id := msg_id, rx_time := rx_time }
    | some c =>
      if c.rx_time < rx_time ∨ (rx_time = c.rx_time ∧ c.message_id < msg_id) then
        some { message_id := msg_id, rx_time := rx_time }
      else some c
  else current

/-- Embeds `mark_read_up_to` (rxonly.js:670-681): mark every materialized
row whose `(rx_time, message_id)` is at or before the stored record. -/
def mark_read_up_to (w : Window) (last_read : ReadPos) : Window :=
  w.items.foldl
    (fun wa m =>
      if m.rx_time < last_read.rx_time ∨
         (m.rx_time = last_read.rx_time ∧ m.message_id ≤ last_read.message_id) then
        mark_message_read wa m.message_id
      else wa)
    w

/-- Mark every materialized row as read, as the fresh-load and
jump-to-newest paths do (messages.js:640-644, 886-889). -/
def mark_all_items_read (w : Window) : Window :=
  w.items.foldl (fun wa m => mark_message_read wa m.message_id) w

/-- The saved-scroll fields of `app_state` (rxonly.js:79-83). -/
structure SavedScroll where
  scroll_top : Option Nat
  is_mobile : Bool
  channel_index : Option Nat
  is_dm : Bool
deriving DecidableEq, Repr

/-- Embeds `clear_saved_scroll_position` (rxonly.js:712-717). -/
def clear_saved_scroll_position : SavedScroll :=
  { scroll_top := none, is_mobile := false, channel_index := none, is_dm := false }

/-- Embeds `consume_saved_scroll_position` (rxonly.js:725-741): returns the
saved offset (and mobile flag) only when something is saved and the saved
context matches the request; whenever something was saved the state is
cleared, matching or not. -/
def consume_saved_scroll_position (s : SavedScroll) (is_dm : Bool)
    (channel_index : Option Nat) : Option (Nat × Bool) × SavedScroll :=
  match s.scroll_top with
  | none => (none, s)
  | some top =>
    if s.is_dm ≠ is_dm then (none, clear_saved_scroll_position)
    else if !is_dm ∧ s.channel_index ≠ channel_index then
      (none, clear_saved_scroll_position)
    else (some (top, s.is_mobile), clear_saved_scroll_position)

/-- The fetch oracle a messages view runs against: the response the server
would give to the `newest` query and to `before_rx_time` / `after_rx_time`
queries with a given boundary. -/
structure Server where
  newest_page : FetchResult
  before_page : Nat → FetchResult
  after_page : Nat → FetchResult

/-- How the view positions the scroll after rendering. -/
inductive ScrollAction
  | no_scroll
  | to_bottom
  | to_message (message_id : Nat)
  | restore (scroll_top : Nat) (is_mobile : Bool)
deriving DecidableEq, Repr

/-- The observable outcome of rendering a messages view: final pagination
state and window, the persisted read position afterwards, the scroll action
taken, and whether the empty-state template replaced the list. -/
structure ViewOutcome where
  st : AppState
  stored : Option ReadPos
  scroll : ScrollAction
  empty_state : Bool
deriving Repr

/-- The pagination state after `reset_message_state` (rxonly.js:850-862). -/
def reset_app_state : AppState :=
  { messages_is_loading := false
    messages_has_more_older := false
    messages_has_more_newer := false
    messages_oldest_rx_time := none
    messages_oldest_id := none
    messages_newest_rx_time := none
    messages_newest_id := none
    messages_total := 0
    window := empty_window }

/-- Embeds `render_messages_fresh` (messages.js:614-655), taking the fetch
result from the oracle: an empty newest page shows the empty-state template
and changes nothing else; otherwise cursors are updated, the page is
rendered into a fresh list, every row is marked read, the read position is
reset to the page's last entry, and the view scrolls to the bottom. -/
def render_messages_fresh (stored0 : Option ReadPos) (server : Server) :
    ViewOutcome :=
  let data := server.newest_page
  match data.page.getLast? with
  | none =>
    { st := reset_app_state, stored := stored0
      scroll := ScrollAction.no_scroll, empty_state := true }
  | some last =>
    let st1 := update_message_cursors reset_app_state data
    let w1 := append_messages_to_list empty_window data.page
    let w2 := mark_all_items_read w1
    { st := { st1 with window := w2 }
      stored := some { message_id := last.message_id, rx_time := last.rx_time }
      scroll := ScrollAction.to_bottom
      empty_state := false }

/-- Embeds `render_messages_view` (messages.js:528-609), taking fetch
results from the oracle.  With no stored read position, or when the context
fetch (`before_rx_time = stored.rx_time + 1`) returns zero entries, it falls
back to the fresh load.  Otherwise it concatenates the context and newer
pages, updates cursors from both fetches (then takes `has_more_newer` from
the newer response and `has_more_older` from the context response), renders,
marks rows up to the stored position as read, and either restores a matching
saved scroll offset or scrolls to the stored-position row. -/
def render_messages_view (is_dm : Bool) (channel_index : Option Nat)
    (stored0 : Option ReadPos) (saved : SavedScroll) (server : Server) :
    ViewOutcome × SavedScroll :=
  match stored0 with
  | none => (render_messages_fresh stored0 server, saved)
  | some lr =>
    let ctx := server.before_page (lr.rx_time + 1)
    if ctx.page.isEmpty then (render_messages_fresh stored0 server, saved)
    else
      let newer := server.after_page lr.rx_time
      let all := ctx.page ++ newer.page
      let st1 := update_message_cursors (update_message_cursors reset_app_state ctx) newer
      let st2 := { st1 with
        messages_has_more_newer := newer.meta.has_more_newer
        messages_has_more_older := ctx.meta.has_more_older }
      let w1 := append_messages_to_list empty_window all
      let w2 := mark_read_up_to w1 lr
      let c := consume_saved_scroll_position saved is_dm channel_index
      let scroll := match c.1 with
        | some (top, mobile) => ScrollAction.restore top mobile
        | none => ScrollAction.to_message lr.message_id
      ({ st := { st2 with window := w2 }, stored := stored0
         scroll := scroll, empty_state := false }, c.2)

/-- A grapheme cluster that matches the Extended_Pictographic pattern. -/
def pict (c : Char) : Grapheme :=
  { cluster := c, pictographic := true }

/-- A tapback fixture: an emoji-only reply to the given parent. -/
def mk_tapback (i mid rx parent : Nat) (c : Char) : Msg :=
  { id := i, message_id := mid, rx_time := rx, reply_to := some parent
    text := [pict c] }

/-- A primary message already materialized in the window. -/
def dup_msg : Msg :=
  { id := 1, message_id := 50, rx_time := 5, reply_to := none, text := [] }

/-- A primary message with a `message_id` not yet in `dup_window`. -/
def fresh_msg : Msg :=
  { id := 2, message_id := 60, rx_time := 6, reply_to := none, text := [] }

/-- A window already containing `dup_msg`. -/
def dup_window : Window :=
  { items := [dup_msg], tapdata := [], pending := [], read_ids := [] }

/-- Eight tapbacks on one parent: six with identical text and two with
distinct texts (the scenario of the reaction-grouping property). -/
def six_plus_two : List Msg :=
  [mk_tapback 1 201 1 100 '👍', mk_tapback 2 202 2 100 '👍',
   mk_tapback 3 203 3 100 '👍', mk_tapback 4 204 4 100 '👍',
   mk_tapback 5 205 5 100 '👍', mk_tapback 6 206 6 100 '👍',
   mk_tapback 7 207 7 100 '🎉', mk_tapback 8 208 8 100 '😀']

/-- Sixteen tapbacks on one parent: ten distinct single reactions (earliest
by `rx_time`) followed by six identical reactions, so the collapsed group is
the eleventh badge and is the one pushed past the ten-badge cap. -/
def ten_plus_six : List Msg :=
  [mk_tapback 1 301 1 100 '👍', mk_tapback 2 302 2 100 '🎉',
   mk_tapback 3 303 3 100 '😀', mk_tapback 4 304 4 100 '😂',
   mk_tapback 5 305 5 100 '❤', mk_tapback 6 306 6 100 '🔥',
   mk_tapback 7 307 7 100 '🙏', mk_tapback 8 308 8 100 '😢',
   mk_tapback 9 309 9 100 '😮', mk_tapback 10 310 10 100 '⭐',
   mk_tapback 20 401 11 100 '🌙', mk_tapback 21 402 12 100 '🌙',
   mk_tapback 22 403 13 100 '🌙', mk_tapback 23 404 14 100 '🌙',
   mk_tapback 24 405 15 100 '🌙', mk_tapback 25 406 16 100 '🌙']

/-- The parent row the attachment fixtures target. -/
def c4_parent : Msg :=
  { id := 1, message_id := 100, rx_time := 10, reply_to := none, text := [] }

/-- A window containing only the parent, before any tapback arrives. -/
def c4_window0 : Window :=
  { items := [c4_parent], tapdata := [], pending := [], read_ids := [] }

/-- Six identical-emoji tapbacks for the parent. -/
def c4_taps : List Msg :=
  [mk_tapback 10 200 20 100 '👍', mk_tapback 11 201 21 100 '👍',
   mk_tapback 12 202 22 100 '👍', mk_tapback 13 203 23 100 '👍',
   mk_tapback 14 204 24 100 '👍', mk_tapback 15 205 25 100 '👍']

/-- The window reached by attaching the six tapbacks one by one: their
emoji group has six members and renders as one collapsed grouped badge. -/
def c4_window6 : Window :=
  c4_taps.foldl (fun w t => (attach_tapback_to_parent w t).1) c4_window0

/-- The first of the six tapbacks again, as a duplicate fetch would deliver
it: its `message_id` (200) is already recorded for the parent. -/
def c4_retap : Msg :=
  mk_tapback 10 200 20 100 '👍'

/-- A pagination state whose window spans `rx_time` 100 to 200, with more
older pages available and no fetch in flight. -/
def c5_state : AppState :=
  { messages_is_loading := false
    messages_has_more_older := true
    messages_has_more_newer := true
    messages_oldest_rx_time := some 100
    messages_oldest_id := some 5
    messages_newest_rx_time := some 200
    messages_newest_id := some 9
    messages_total := 3
    window := empty_window }

/-- A load-older response whose single entry lies strictly inside the
current window (`rx_time` 150, between the bounds 100 and 200). -/
def c5_page : FetchResult :=
  { meta := { has_more_older := true, has_more_newer := false, total := 3 }
    page := [{ id := 7, message_id := 77, rx_time := 150, reply_to := none, text := [] }] }

/-- A load-older response whose single entry is strictly older than the
current oldest bound, as the server contract provides. -/
def c5_ok_page : FetchResult :=
  { meta := { has_more_older := true, has_more_newer := false, total := 3 }
    page := [{ id := 2, message_id := 88, rx_time := 40, reply_to := none, text := [] }] }

/-- A state in which every one of the four pagination operations is ready to
run: nothing in flight, both directions have more pages, both cursors set. -/
def c8_state : AppState :=
  { messages_is_loading := false
    messages_has_more_older := true
    messages_has_more_newer := true
    messages_oldest_rx_time := some 100
    messages_oldest_id := some 5
    messages_newest_rx_time := some 200
    messages_newest_id := some 9
    messages_total := 3
    window := empty_window }

/-- `c8_state` with the loading guard held, as left by the begin phase of a
load-older, load-newer, or jump-to-newest call. -/
def c8_loading : AppState :=
  { c8_state with messages_is_loading := true }

/-- An empty page response. -/
def empty_page : FetchResult :=
  { meta := { has_more_older := false, has_more_newer := false, total := 3 }
    page := [] }

/-- A stored read position whose `rx_time` (50) is older than anything the
fixture server below still retains. -/
def c7_lr : ReadPos :=
  { message_id := 99, rx_time := 50 }

/-- A server that has pruned everything at or before `rx_time` 50: every
`before` query returns an empty page, while the newest page holds two
primary entries at `rx_time` 300 and 400. -/
def c7_server : Server :=
  { newest_page :=
      { meta := { has_more_older := false, has_more_newer := false, total := 2 }
        page := [{ id := 3, message_id := 30, rx_time := 300, reply_to := none, text := [] },
                 { id := 4, message_id := 40, rx_time := 400, reply_to := none, text := [] }] }
    before_page := fun _ =>
      { meta := { has_more_older := false, has_more_newer := false, total := 2 }, page := [] }
    after_page := fun _ =>
      { meta := { has_more_older := false, has_more_newer := false, total := 2 }, page := [] } }

/-- A saved scroll position for channel 2 on desktop. -/
def c10_saved : SavedScroll :=
  { scroll_top := some 120, is_mobile := false, channel_index := some 2, is_dm := false }

/-!
Frame lemmas: the tapback attachment machinery only ever touches the
tapback containers, the pending map and the read marks — never the primary
rows of the list.
-/

theorem attach_tapback_items (w : Window) (t : Msg) :
    ((attach_tapback_to_parent w t).1).items = w.items := by
  unfold attach_tapback_to_parent
  dsimp only
  split
  · split
    · rfl
    · rfl
  · rfl

theorem store_pending_items (w : Window) (t : Msg) :
    (store_pending_tapback w t).items = w.items := by
  rfl

theorem mark_message_read_items (w : Window) (mid : Nat) :
    (mark_message_read w mid).items = w.items := by
  unfold mark_message_read
  split
  · rfl
  · rfl

theorem merge_tapback_step_items (w : Window) (t : Msg) :
    (merge_tapback_step w t).items = w.items := by
  unfold merge_tapback_step
  dsimp only
  split
  · exact attach_tapback_items w t
  · rw [store_pending_items, attach_tapback_items]

theorem foldl_items_invariant {α : Type} (f : Window → α → Window)
    (h : ∀ w a, (f w a).items = w.items) :
    ∀ (l : List α) (w : Window), (l.foldl f w).items = w.items := by
  intro l
  induction l with
  | nil => intro w; rfl
  | cons a l ih => intro w; rw [List.foldl_cons, ih, h]

theorem flush_step_items (acc : Window × List Nat) (entry : Nat × List Msg) :
    ((flush_step acc entry).1).items = acc.1.items := by
  unfold flush_step
  split
  · exact foldl_items_invariant _ attach_tapback_items entry.2 acc.1
  · rfl

theorem flush_fold_items :
    ∀ (l : List (Nat × List Msg)) (acc : Window × List Nat),
      ((l.foldl flush_step acc).1).items = acc.1.items := by
  intro l
  induction l with
  | nil => intro acc; rfl
  | cons e l ih => intro acc; rw [List.foldl_cons, ih, flush_step_items]

theorem flush_pending_items (w : Window) :
    (flush_pending_tapbacks w).items = w.items :=
  flush_fold_items w.pending (w, [])

theorem append_messages_items (w : Window) (page : List Msg) :
    (append_messages_to_list w page).items =
      w.items ++ page.filter (fun m => !is_tapback m) := by
  simp only [append_messages_to_list]
  rw [flush_pending_items, foldl_items_invariant _ merge_tapback_step_items]

theorem prepend_messages_items (w : Window) (page : List Msg) :
    (prepend_messages_to_list w page).items =
      page.filter (fun m => !is_tapback m) ++ w.items := by
  simp only [prepend_messages_to_list]
  rw [flush_pending_items, foldl_items_invariant _ merge_tapback_step_items,
    @foldl_items_invariant Msg (fun wa m => mark_message_read wa m.message_id)
      (fun wa m => mark_message_read_items wa m.message_id)]

/-- C1 (counterexample): merging a fetched page that contains a primary
entry whose `message_id` (50) is already present in the window re-inserts
it — `append_messages_to_list` performs no duplicate check on primary
entries, so the materialized window ends up with `message_id` 50 twice. -/
theorem append_duplicate_reinserted :
    dup_msg.message_id ∈ dup_window.items.map Msg.message_id ∧
    (append_messages_to_list dup_window [dup_msg]).items.map Msg.message_id = [50, 50] ∧
    ¬ ((append_messages_to_list dup_window [dup_msg]).items.map Msg.message_id).Nodup := by
  decide

/-- C1 (amended): reaction entries already attached to their parent are
rejected, but primary entries are inserted with no duplicate check; hence
no `message_id` appears twice in the materialized window provided every
merged page's primary entries have pairwise-distinct `message_id`s that are
disjoint from those already present — under that freshness assumption both
append and prepend preserve the no-duplicates invariant. -/
theorem merge_fresh_pages_nodup (w : Window) (page : List Msg)
    (hw : (w.items.map Msg.message_id).Nodup)
    (hp : ((page.filter (fun m => !is_tapback m)).map Msg.message_id).Nodup)
    (hdisj : ∀ m ∈ page.filter (fun m => !is_tapback m),
      m.message_id ∉ w.items.map Msg.message_id) :
    ((append_messages_to_list w page).items.map Msg.message_id).Nodup ∧
    ((prepend_messages_to_list w page).items.map Msg.message_id).Nodup := by
  rw [append_messages_items, prepend_messages_items, List.map_append, List.map_append]
  have hd : (page.filter (fun m => !is_tapback m)).map Msg.message_id |>.Disjoint
      (w.items.map Msg.message_id) := by
    intro a ha hb
    rcases List.mem_map.mp ha with ⟨m, hm, rfl⟩
    exact hdisj m hm hb
  exact ⟨hw.append hp (List.disjoint_symm hd), hp.append hw hd⟩

/-- C1 (witness to the amended theorem): a concrete one-element window and a
disjoint one-element page merge to duplicate-free windows. -/
theorem merge_fresh_pages_nodup_witness :
    (dup_window.items.map Msg.message_id).Nodup ∧
    ((append_messages_to_list dup_window [fresh_msg]).items.map Msg.message_id).Nodup ∧
    ((prepend_messages_to_list dup_window [fresh_msg]).items.map Msg.message_id).Nodup :=
  ⟨by decide, merge_fresh_pages_nodup dup_window [fresh_msg] (by decide) (by decide) (by decide)⟩

/-- C9: a load-older call whose fetch returns an empty page only clears
`has_more_older`, leaving `has_more_newer`, all four cursor fields, the
total and the materialized window untouched; symmetrically, a load-newer
call with an empty page only clears `has_more_newer`. -/
theorem empty_page_frame_effect :
    (∀ (s : AppState) (data : FetchResult),
      s.messages_is_loading = false → s.messages_has_more_older = true →
      s.messages_oldest_rx_time.isSome → data.page = [] →
      load_older_messages s data = { s with messages_has_more_older := false }) ∧
    (∀ (s : AppState) (data : FetchResult),
      s.messages_is_loading = false → s.messages_has_more_newer = true →
      s.messages_newest_rx_time.isSome → data.page = [] →
      load_newer_messages s data = { s with messages_has_more_newer := false }) := by
  constructor
  · intro s data h1 h2 h3 h4
    rcases Option.isSome_iff_exists.mp h3 with ⟨v, hv⟩
    unfold load_older_messages
    rw [h1, h2, h4, hv]
    simp
  · intro s data h1 h2 h3 h4
    rcases Option.isSome_iff_exists.mp h3 with ⟨v, hv⟩
    unfold load_newer_messages
    rw [h1, h2, h4, hv]
    simp

/-- C9 (witness): the empty-page frame effect at a concrete ready state. -/
theorem empty_page_frame_effect_witness :
    load_older_messages c8_state empty_page = { c8_state with messages_has_more_older := false } ∧
    load_newer_messages c8_state empty_page = { c8_state with messages_has_more_newer := false } :=
  ⟨empty_page_frame_effect.1 c8_state empty_page rfl rfl rfl rfl,
   empty_page_frame_effect.2 c8_state empty_page rfl rfl rfl rfl⟩

/-- C10: `consume_saved_scroll_position` returns the saved offset only when
the saved context matches the request (same `is_dm`, and for channels the
same `channel_index`); every call made while a position is saved clears it,
matching or not, so an immediately repeated call returns `null`. -/
theorem consume_saved_scroll_spec :
    ∀ (s : SavedScroll) (dm : Bool) (ci : Option Nat),
      (∀ r, (consume_saved_scroll_position s dm ci).1 = some r →
        s.is_dm = dm ∧ (dm = false → s.channel_index = ci)) ∧
      (s.scroll_top ≠ none →
        (consume_saved_scroll_position s dm ci).2.scroll_top = none) ∧
      (∀ (dm' : Bool) (ci' : Option Nat), s.scroll_top ≠ none →
        (consume_saved_scroll_position
          (consume_saved_scroll_position s dm ci).2 dm' ci').1 = none) := by
  intro s dm ci
  rcases htop : s.scroll_top with _ | top
  · refine ⟨?_, ?_, ?_⟩
    · intro r hr
      simp only [consume_saved_scroll_position, htop] at hr
      exact Option.noConfusion hr
    · intro h; exact absurd rfl h
    · intro dm' ci' h; exact absurd rfl h
  · refine ⟨?_, ?_, ?_⟩
    · intro r hr
      by_cases h1 : s.is_dm = dm
      · by_cases h2 : s.channel_index = ci
        · exact ⟨h1, fun _ => h2⟩
        · cases dm
          · simp [consume_saved_scroll_position, htop, h1, h2] at hr
          · exact ⟨h1, fun hdm => absurd hdm (by decide)⟩
      · simp [consume_saved_scroll_position, htop, h1] at hr
    · intro _
      simp only [consume_saved_scroll_position, htop]
      split_ifs <;> rfl
    · intro dm' ci' _
      simp only [consume_saved_scroll_position, htop]
      split_ifs <;> rfl

/-- C10 (witness): a saved desktop position for channel 2 is cleared by its
consuming call, and an immediately repeated call returns nothing. -/
theorem consume_saved_scroll_spec_witness :
    c10_saved.scroll_top ≠ none ∧
    (consume_saved_scroll_position c10_saved false (some 2)).2.scroll_top = none ∧
    (consume_saved_scroll_position
      (consume_saved_scroll_position c10_saved false (some 2)).2 false (some 2)).1 = none :=
  ⟨by decide, (consume_saved_scroll_spec c10_saved false (some 2)).2.1 (by decide),
   (consume_saved_scroll_spec c10_saved false (some 2)).2.2 false (some 2) (by decide)⟩

/-- C6: the stored ReadPosition is overwritten only when the candidate's
`(rx_time, message_id)` pair is strictly greater in tuple order; committing
a candidate at or below the stored pair is a no-op, so the stored pair never
decreases: the result is either the old record or the strictly greater
candidate. -/
theorem read_commit_monotone :
    ∀ (cur : ReadPos) (mi rx : Nat),
      (key_le (rx, mi) (cur.rx_time, cur.message_id) →
        update_read_position (some cur) mi rx = some cur) ∧
      (∀ p, update_read_position (some cur) mi rx = some p →
        p = cur ∨ (p = { message_id := mi, rx_time := rx } ∧
          key_lt (cur.rx_time, cur.message_id) (rx, mi))) := by
  intro cur mi rx
  simp only [update_read_position]
  constructor
  · intro hle
    simp only [key_le, key_lt, Prod.mk.injEq] at hle
    by_cases hg : mi ≠ 0 ∧ rx ≠ 0
    · rw [if_pos hg, if_neg (by omega)]
    · rw [if_neg hg]
  · intro p hp
    by_cases hg : mi ≠ 0 ∧ rx ≠ 0
    · rw [if_pos hg] at hp
      by_cases hc : cur.rx_time < rx ∨ (rx = cur.rx_time ∧ cur.message_id < mi)
      · rw [if_pos hc] at hp
        right
        refine ⟨(Option.some.inj hp).symm, ?_⟩
        simp only [key_lt]
        omega
      · rw [if_neg hc] at hp
        left
        exact (Option.some.inj hp).symm
    · rw [if_neg hg] at hp
      left
      exact (Option.some.inj hp).symm

/-- C6 (witness): committing the candidate `(rx_time 100, message_id 5)`
against the stored record `(rx_time 100, message_id 7)` is a no-op. -/
theorem read_commit_monotone_witness :
    key_le (100, 5) (({ message_id := 7, rx_time := 100 } : ReadPos).rx_time,
      ({ message_id := 7, rx_time := 100 } : ReadPos).message_id) ∧
    update_read_position (some { message_id := 7, rx_time := 100 }) 5 100 =
      some { message_id := 7, rx_time := 100 } :=
  ⟨by decide, (read_commit_monotone { message_id := 7, rx_time := 100 } 5 100).1 (by decide)⟩

/-- C8 (counterexample): the poll's guard phase proceeds without setting the
loading flag (`update_messages_list_begin` leaves the state unchanged), so a
load-older call invoked while that poll is outstanding also proceeds and
mutates the state — it is not a no-op, contradicting the claimed mutual
exclusion among the four operations. -/
theorem poll_does_not_hold_guard_counterexample :
    update_messages_list_begin c8_state = some c8_state ∧
    load_older_begin c8_state = some c8_loading ∧
    c8_loading ≠ c8_state := by
  refine ⟨by decide, by decide, by decide⟩

/-- C8 (amended): whenever a load-older, load-newer, or jump-to-newest call
passes its guard, the resulting in-flight state has the loading flag set and
every one of the four operations (poll included) invoked in that state is a
no-op; the poll itself does not set the flag, so it provides no such
exclusion while it is outstanding. -/
theorem pagination_guard_exclusion_amended :
    ∀ (s s' : AppState),
      (load_older_begin s = some s' ∨ load_newer_begin s = some s' ∨
       handle_jump_to_newest_begin s = some s') →
      s'.messages_is_loading = true ∧
      load_older_begin s' = none ∧ load_newer_begin s' = none ∧
      handle_jump_to_newest_begin s' = none ∧
      update_messages_list_begin s' = none := by
  intro s s' h
  have hload : s'.messages_is_loading = true := by
    rcases h with h | h | h
    · unfold load_older_begin at h
      split_ifs at h
      rw [← Option.some.inj h]
    · unfold load_newer_begin at h
      split_ifs at h
      rw [← Option.some.inj h]
    · unfold handle_jump_to_newest_begin at h
      split_ifs at h
      rw [← Option.some.inj h]
  refine ⟨hload, ?_, ?_, ?_, ?_⟩
  · simp [load_older_begin, hload]
  · simp [load_newer_begin, hload]
  · simp [handle_jump_to_newest_begin, hload]
  · simp [update_messages_list_begin, hload]

/-- C8 (witness to the amended theorem): after a load-older call passes its
guard from the ready state, all four operations are no-ops. -/
theorem pagination_guard_exclusion_witness :
    load_older_begin c8_state = some c8_loading ∧
    (c8_loading.messages_is_loading = true ∧
     load_older_begin c8_loading = none ∧ load_newer_begin c8_loading = none ∧
     handle_jump_to_newest_begin c8_loading = none ∧
     update_messages_list_begin c8_loading = none) :=
  ⟨by decide, pagination_guard_exclusion_amended c8_state c8_loading (Or.inl (by decide))⟩

theorem mem_of_head?_eq_some {l : List Msg} {a : Msg} (h : l.head? = some a) :
    a ∈ l := by
  cases l with
  | nil => exact Option.noConfusion h
  | cons x xs =>
    have hx : x = a := Option.some.inj h
    subst hx
    exact List.mem_cons_self x xs

theorem mem_of_getLast?_eq_some {l : List Msg} {a : Msg} (h : l.getLast? = some a) :
    a ∈ l := by
  rcases List.mem_getLast?_eq_getLast (Option.mem_def.mpr h) with ⟨hne, heq⟩
  rw [heq]
  exact List.getLast_mem hne

/-- C5 (counterexample): `load_older_messages` assigns the oldest cursor
directly from the fetched page; a fetch that returns an entry strictly
inside the current window (here `rx_time` 150 inside [100, 200]) moves the
oldest bound from 100 forward to 150 — the bound regresses, so the cursor
is not non-increasing over load-before fetches. -/
theorem load_older_regresses_oldest_counterexample :
    c5_state.messages_oldest_rx_time = some 100 ∧
    c5_state.messages_newest_rx_time = some 200 ∧
    (∀ m ∈ c5_page.page, 100 ≤ m.rx_time ∧ m.rx_time ≤ 200) ∧
    (load_older_messages c5_state c5_page).messages_oldest_rx_time = some 150 ∧
    ¬ key_le (150, 7) (100, 5) := by
  refine ⟨by decide, by decide, by decide, by decide, by decide⟩

/-- C5 (amended): `update_message_cursors` is unconditionally monotone —
the oldest key never moves later and the newest key never moves earlier,
including for pages inside the current window; `load_older_messages` and
`load_newer_messages` overwrite their boundary cursor directly from the
page, so they are monotone (and leave the opposite bound untouched) only
when the fetched page lies strictly outside the window on the fetched side,
as the strict `before_rx_time` / `after_rx_time` server queries provide. -/
theorem cursor_update_monotone_amended :
    (∀ (s : AppState) (data : FetchResult) (o oi n ni : Nat),
      s.messages_oldest_rx_time = some o → s.messages_oldest_id = some oi →
      s.messages_newest_rx_time = some n → s.messages_newest_id = some ni →
      ∃ o2 oi2 n2 ni2,
        (update_message_cursors s data).messages_oldest_rx_time = some o2 ∧
        (update_message_cursors s data).messages_oldest_id = some oi2 ∧
        (update_message_cursors s data).messages_newest_rx_time = some n2 ∧
        (update_message_cursors s data).messages_newest_id = some ni2 ∧
        key_le (o2, oi2) (o, oi) ∧ key_le (n, ni) (n2, ni2)) ∧
    (∀ (s : AppState) (data : FetchResult) (o oi : Nat),
      s.messages_oldest_rx_time = some o → s.messages_oldest_id = some oi →
      (∀ m ∈ data.page, m.rx_time < o) →
      (load_older_messages s data).messages_newest_rx_time = s.messages_newest_rx_time ∧
      (load_older_messages s data).messages_newest_id = s.messages_newest_id ∧
      ∃ o2 oi2,
        (load_older_messages s data).messages_oldest_rx_time = some o2 ∧
        (load_older_messages s data).messages_oldest_id = some oi2 ∧
        key_le (o2, oi2) (o, oi)) ∧
    (∀ (s : AppState) (data : FetchResult) (n ni : Nat),
      s.messages_newest_rx_time = some n → s.messages_newest_id = some ni →
      (∀ m ∈ data.page, n < m.rx_time) →
      (load_newer_messages s data).messages_oldest_rx_time = s.messages_oldest_rx_time ∧
      (load_newer_messages s data).messages_oldest_id = s.messages_oldest_id ∧
      ∃ n2 ni2,
        (load_newer_messages s data).messages_newest_rx_time = some n2 ∧
        (load_newer_messages s data).messages_newest_id = some ni2 ∧
        key_le (n, ni) (n2, ni2)) := by
  refine ⟨?_, ?_, ?_⟩
  · intro s data o oi n ni ho hoi hn hni
    unfold update_message_cursors
    cases hh : data.page.head? with
    | none =>
      cases hl : data.page.getLast? with
      | none => exact ⟨o, oi, n, ni, ho, hoi, hn, hni, Or.inr rfl, Or.inr rfl⟩
      | some last => exact ⟨o, oi, n, ni, ho, hoi, hn, hni, Or.inr rfl, Or.inr rfl⟩
    | some first =>
      cases hl : data.page.getLast? with
      | none => exact ⟨o, oi, n, ni, ho, hoi, hn, hni, Or.inr rfl, Or.inr rfl⟩
      | some last =>
        dsimp only
        split_ifs with h1 h2 h2
        · refine ⟨first.rx_time, first.id, last.rx_time, last.id, rfl, rfl, rfl, rfl, ?_, ?_⟩
          · simp only [ho, hoi, js_lt_opt, Option.isNone_some, Bool.false_or,
              Bool.or_eq_true, Bool.and_eq_true, decide_eq_true_eq, beq_iff_eq,
              Option.some.injEq] at h1
            simp only [key_le, key_lt, Prod.mk.injEq]
            omega
          · simp only [hn, hni, js_gt_opt, Option.isNone_some, Bool.false_or,
              Bool.or_eq_true, Bool.and_eq_true, decide_eq_true_eq, beq_iff_eq,
              Option.some.injEq] at h2
            simp only [key_le, key_lt, Prod.mk.injEq]
            omega
        · refine ⟨first.rx_time, first.id, n, ni, rfl, rfl, hn, hni, ?_, Or.inr rfl⟩
          simp only [ho, hoi, js_lt_opt, Option.isNone_some, Bool.false_or,
            Bool.or_eq_true, Bool.and_eq_true, decide_eq_true_eq, beq_iff_eq,
            Option.some.injEq] at h1
          simp only [key_le, key_lt, Prod.mk.injEq]
          omega
        · refine ⟨o, oi, last.rx_time, last.id, ho, hoi, rfl, rfl, Or.inr rfl, ?_⟩
          simp only [hn, hni, js_gt_opt, Option.isNone_some, Bool.false_or,
            Bool.or_eq_true, Bool.and_eq_true, decide_eq_true_eq, beq_iff_eq,
            Option.some.injEq] at h2
          simp only [key_le, key_lt, Prod.mk.injEq]
          omega
        · exact ⟨o, oi, n, ni, ho, hoi, hn, hni, Or.inr rfl, Or.inr rfl⟩
  · intro s data o oi ho hoi hpage
    unfold load_older_messages
    split_ifs with h1 h2
    · exact ⟨rfl, rfl, o, oi, ho, hoi, Or.inr rfl⟩
    · rw [ho] at h2
      exact absurd h2 (by simp)
    · cases hh : data.page.head? with
      | none => exact ⟨rfl, rfl, o, oi, ho, hoi, Or.inr rfl⟩
      | some first =>
        refine ⟨rfl, rfl, first.rx_time, first.id, rfl, rfl, ?_⟩
        have hf : first.rx_time < o := hpage first (mem_of_head?_eq_some hh)
        simp only [key_le, key_lt, Prod.mk.injEq]
        omega
  · intro s data n ni hn hni hpage
    unfold load_newer_messages
    split_ifs with h1 h2
    · exact ⟨rfl, rfl, n, ni, hn, hni, Or.inr rfl⟩
    · rw [hn] at h2
      exact absurd h2 (by simp)
    · cases hl : data.page.getLast? with
      | none => exact ⟨rfl, rfl, n, ni, hn, hni, Or.inr rfl⟩
      | some last =>
        refine ⟨rfl, rfl, last.rx_time, last.id, rfl, rfl, ?_⟩
        have hf : n < last.rx_time := hpage last (mem_of_getLast?_eq_some hl)
        simp only [key_le, key_lt, Prod.mk.injEq]
        omega

/-- C5 (witness to the amended theorem): a load-older fetch whose page is
strictly older than the oldest bound (rx_time 40 against bound 100) leaves
the newest bound untouched and can only move the oldest bound earlier. -/
theorem cursor_update_monotone_witness :
    (∀ m ∈ c5_ok_page.page, m.rx_time < 100) ∧
    ((load_older_messages c5_state c5_ok_page).messages_newest_rx_time =
       c5_state.messages_newest_rx_time ∧
     (load_older_messages c5_state c5_ok_page).messages_newest_id =
       c5_state.messages_newest_id ∧
     ∃ o2 oi2,
       (load_older_messages c5_state c5_ok_page).messages_oldest_rx_time = some o2 ∧
       (load_older_messages c5_state c5_ok_page).messages_oldest_id = some oi2 ∧
       key_le (o2, oi2) (100, 5)) :=
  ⟨by decide, cursor_update_monotone_amended.2.1 c5_state c5_ok_page 100 5 rfl rfl (by decide)⟩

theorem mark_message_read_read_ids_mono (w : Window) (mid x : Nat)
    (hx : x ∈ w.read_ids) : x ∈ (mark_message_read w mid).read_ids := by
  unfold mark_message_read
  split
  · exact hx
  · exact List.mem_append_left _ hx

theorem mark_message_read_self (w : Window) (mid : Nat) :
    mid ∈ (mark_message_read w mid).read_ids := by
  unfold mark_message_read
  split
  · assumption
  · exact List.mem_append_right _ (List.mem_singleton_self mid)

theorem fold_mark_read_ids_mono :
    ∀ (l : List Msg) (w : Window) (x : Nat), x ∈ w.read_ids →
      x ∈ (l.foldl (fun wa m => mark_message_read wa m.message_id) w).read_ids := by
  intro l
  induction l with
  | nil => intro w x hx; exact hx
  | cons a l ih =>
    intro w x hx
    rw [List.foldl_cons]
    exact ih _ x (mark_message_read_read_ids_mono w a.message_id x hx)

theorem fold_mark_adds :
    ∀ (l : List Msg) (w : Window) (m : Msg), m ∈ l →
      m.message_id ∈ (l.foldl (fun wa m => mark_message_read wa m.message_id) w).read_ids := by
  intro l
  induction l with
  | nil => intro w m hm; exact absurd hm (List.not_mem_nil m)
  | cons a l ih =>
    intro w m hm
    rw [List.foldl_cons]
    rcases List.mem_cons.mp hm with rfl | hm
    · exact fold_mark_read_ids_mono l _ _ (mark_message_read_self w m.message_id)
    · exact ih _ m hm

theorem mark_all_items_read_items (w : Window) :
    (mark_all_items_read w).items = w.items :=
  @foldl_items_invariant Msg (fun wa m => mark_message_read wa m.message_id)
    (fun wa m => mark_message_read_items wa m.message_id) w.items w

theorem mark_all_items_read_marks (w : Window) (m : Msg) (hm : m ∈ w.items) :
    m.message_id ∈ (mark_all_items_read w).read_ids :=
  fold_mark_adds w.items w m hm

/-- C7: when a stored ReadPosition exists but the context fetch (the page
ending at or before the stored position) returns zero entries, the view
falls back to a fresh load: the newest page's primary entries become the
materialized window, every one of them is marked read, the ReadPosition is
reset to the newest entry of that page, and the view scrolls to the
bottom. -/
theorem resume_fallback_fresh_load :
    ∀ (dm : Bool) (ci : Option Nat) (lr : ReadPos) (saved : SavedScroll)
      (server : Server) (last : Msg),
      (server.before_page (lr.rx_time + 1)).page = [] →
      server.newest_page.page.getLast? = some last →
      ((render_messages_view dm ci (some lr) saved server).1.st.window.items =
        server.newest_page.page.filter (fun m => !is_tapback m)) ∧
      (∀ m ∈ (render_messages_view dm ci (some lr) saved server).1.st.window.items,
        m.message_id ∈
          (render_messages_view dm ci (some lr) saved server).1.st.window.read_ids) ∧
      (render_messages_view dm ci (some lr) saved server).1.stored =
        some { message_id := last.message_id, rx_time := last.rx_time } ∧
      (render_messages_view dm ci (some lr) saved server).1.scroll =
        ScrollAction.to_bottom ∧
      (render_messages_view dm ci (some lr) saved server).1.empty_state = false := by
  intro dm ci lr saved server last hctx hlast
  have hred : (render_messages_view dm ci (some lr) saved server).1 =
      render_messages_fresh (some lr) server := by
    simp only [render_messages_view]
    rw [hctx]
    simp only [List.isEmpty_nil, if_true]
  have hfresh : render_messages_fresh (some lr) server =
      { st := { update_message_cursors reset_app_state server.newest_page with
          window := mark_all_items_read
            (append_messages_to_list empty_window server.newest_page.page) }
        stored := some { message_id := last.message_id, rx_time := last.rx_time }
        scroll := ScrollAction.to_bottom
        empty_state := false } := by
    simp only [render_messages_fresh]
    rw [hlast]
  rw [hred, hfresh]
  refine ⟨?_, ?_, rfl, rfl, rfl⟩
  · rw [mark_all_items_read_items, append_messages_items]
    rfl
  · intro m hm
    rw [mark_all_items_read_items] at hm
    exact mark_all_items_read_marks _ m hm

/-- C7 (witness): against a server that has pruned everything at or before
the stored position (`rx_time` 50), the resume render ends with the two
newest entries loaded, both marked read, the ReadPosition reset to the
entry at `rx_time` 400, and the view scrolled to the bottom. -/
theorem resume_fallback_fresh_load_witness :
    (c7_server.before_page (c7_lr.rx_time + 1)).page = [] ∧
    (render_messages_view false (some 1) (some c7_lr) clear_saved_scroll_position
      c7_server).1.stored = some { message_id := 40, rx_time := 400 } ∧
    (render_messages_view false (some 1) (some c7_lr) clear_saved_scroll_position
      c7_server).1.scroll = ScrollAction.to_bottom :=
  ⟨by decide,
   (resume_fallback_fresh_load false (some 1) c7_lr clear_saved_scroll_position
     c7_server { id := 4, message_id := 40, rx_time := 400, reply_to := none, text := [] }
     (by decide) (by decide)).2.2.1,
   (resume_fallback_fresh_load false (some 1) c7_lr clear_saved_scroll_position
     c7_server { id := 4, message_id := 40, rx_time := 400, reply_to := none, text := [] }
     (by decide) (by decide)).2.2.2.1⟩

/-- C4: attaching a tapback whose `message_id` is already recorded for the
parent is NOT a no-op when its emoji group is rendered as a collapsed
grouped badge.  After six identical-emoji tapbacks the container shows one
grouped badge carrying no `data-tapback-id`, so the duplicate check of
`attach_tapback_to_parent` (which scans `[data-tapback-id]` pills) misses
the recorded id: re-attaching tapback 200 grows the parent's collection
from 6 to 7 and re-renders the badge as a count of 7, although the code's
own comment says it avoids duplicates.  This contradicts the claimed
idempotence, which the code itself intends. -/
theorem attach_grouped_not_idempotent :
    (assoc_get c4_window6.tapdata 100).length = 6 ∧
    c4_retap ∈ assoc_get c4_window6.tapdata 100 ∧
    (render_tapbacks (assoc_get c4_window6.tapdata 100)).visible =
      [Pill.grouped [pict '👍'] 6] ∧
    (attach_tapback_to_parent c4_window6 c4_retap).1 ≠ c4_window6 ∧
    (assoc_get (attach_tapback_to_parent c4_window6 c4_retap).1.tapdata 100).length = 7 ∧
    (render_tapbacks
      (assoc_get (attach_tapback_to_parent c4_window6 c4_retap).1.tapdata 100)).visible =
      [Pill.grouped [pict '👍'] 7] := by
  refine ⟨by decide, by decide, by decide, by decide, by decide, by decide⟩

/-!
Lemmas about the tapback sorting and grouping pipeline of
`render_tapbacks`, leading to the reaction-grouping and overflow claims.
-/

theorem insert_by_rx_perm (m : Msg) : ∀ (l : List Msg), List.Perm (insert_by_rx m l) (m :: l) := by
  intro l
  induction l with
  | nil => exact List.Perm.refl _
  | cons x xs ih =>
    unfold insert_by_rx
    split
    · exact List.Perm.refl _
    · exact (List.Perm.cons x ih).trans (List.Perm.swap m x xs)

theorem sort_fold_perm : ∀ (l acc : List Msg),
    List.Perm (l.foldl (fun acc m => insert_by_rx m acc) acc) (l ++ acc) := by
  intro l
  induction l with
  | nil => intro acc; simp
  | cons a l ih =>
    intro acc
    rw [List.foldl_cons]
    exact (ih (insert_by_rx a acc)).trans
      ((List.Perm.append_left l (insert_by_rx_perm a acc)).trans List.perm_middle)

theorem sort_by_rx_perm (l : List Msg) : List.Perm (sort_by_rx l) l := by
  have h := sort_fold_perm l []
  simpa [sort_by_rx] using h

theorem group_insert_keys (gs : List (List Grapheme × List Msg))
    (k : List Grapheme) (m : Msg) :
    (group_insert gs k m).map Prod.fst =
      if k ∈ gs.map Prod.fst then gs.map Prod.fst else gs.map Prod.fst ++ [k] := by
  induction gs with
  | nil => simp [group_insert]
  | cons e rest ih =>
    obtain ⟨kh, msh⟩ := e
    unfold group_insert
    by_cases hk : kh = k
    · subst hk
      simp [List.mem_cons]
    · rw [if_neg hk]
      simp only [List.map_cons, ih]
      by_cases hmem : k ∈ rest.map Prod.fst
      · rw [if_pos hmem, if_pos (List.mem_cons_of_mem kh hmem)]
      · have hk2 : k ∉ kh :: rest.map Prod.fst := by
          intro hc
          rcases List.mem_cons.mp hc with h | h
          · exact hk h.symm
          · exact hmem h
        rw [if_neg hmem, if_neg hk2]
        simp

theorem group_insert_glen (gs : List (List Grapheme × List Msg))
    (k : List Grapheme) (m : Msg) (k0 : List Grapheme) :
    glen k0 (group_insert gs k m) = glen k0 gs + (if k0 = k then 1 else 0) := by
  induction gs with
  | nil =>
    simp only [group_insert, glen]
    by_cases h : k = k0
    · subst h
      simp
    · rw [if_neg h, if_neg (fun hc => h hc.symm)]
  | cons e rest ih =>
    obtain ⟨kh, msh⟩ := e
    unfold group_insert
    by_cases hkh : kh = k
    · subst hkh
      rw [if_pos rfl]
      simp only [glen]
      by_cases h0 : kh = k0
      · subst h0
        simp
      · rw [if_neg h0, if_neg h0, if_neg (fun hc => h0 hc.symm)]
        omega
    · rw [if_neg hkh]
      simp only [glen]
      by_cases h0 : kh = k0
      · rw [if_pos h0, if_pos h0, if_neg (fun hc => hkh (h0.trans hc))]
        omega
      · rw [if_neg h0, if_neg h0]
        exact ih

theorem group_fold_glen : ∀ (ts : List Msg) (gs : List (List Grapheme × List Msg))
    (k : List Grapheme),
    glen k (ts.foldl (fun g t => group_insert g t.text t) gs) =
      glen k gs + ts.countP (fun m => decide (m.text = k)) := by
  intro ts
  induction ts with
  | nil => intro gs k; simp
  | cons t ts ih =>
    intro gs k
    rw [List.foldl_cons, ih, group_insert_glen, List.countP_cons]
    simp only [decide_eq_true_eq]
    by_cases h : k = t.text
    · rw [if_pos h, if_pos h.symm]
      omega
    · rw [if_neg h, if_neg (fun hc => h hc.symm)]
      omega

theorem group_by_emoji_glen (ts : List Msg) (k : List Grapheme) :
    glen k (group_by_emoji ts) = ts.countP (fun m => decide (m.text = k)) := by
  have h := group_fold_glen ts [] k
  simpa [group_by_emoji, glen] using h

theorem group_fold_keys_mem : ∀ (ts : List Msg) (gs : List (List Grapheme × List Msg))
    (k0 : List Grapheme),
    (k0 ∈ (ts.foldl (fun g t => group_insert g t.text t) gs).map Prod.fst ↔
      k0 ∈ gs.map Prod.fst ∨ k0 ∈ ts.map Msg.text) := by
  intro ts
  induction ts with
  | nil => intro gs k0; simp
  | cons t ts ih =>
    intro gs k0
    rw [List.foldl_cons, ih, group_insert_keys]
    by_cases hmem : t.text ∈ gs.map Prod.fst
    · rw [if_pos hmem, List.map_cons]
      constructor
      · rintro (h | h)
        · exact Or.inl h
        · exact Or.inr (List.mem_cons_of_mem _ h)
      · rintro (h | h)
        · exact Or.inl h
        · rcases List.mem_cons.mp h with h2 | h2
          · exact Or.inl (h2 ▸ hmem)
          · exact Or.inr h2
    · rw [if_neg hmem, List.map_cons]
      constructor
      · rintro (h | h)
        · rcases List.mem_append.mp h with h2 | h2
          · exact Or.inl h2
          · right
            rw [List.mem_singleton] at h2
            rw [h2]
            exact List.mem_cons_self _ _
        · exact Or.inr (List.mem_cons_of_mem _ h)
      · rintro (h | h)
        · exact Or.inl (List.mem_append.mpr (Or.inl h))
        · rcases List.mem_cons.mp h with h2 | h2
          · refine Or.inl (List.mem_append.mpr (Or.inr ?_))
            rw [List.mem_singleton]
            exact h2
          · exact Or.inr h2

theorem group_by_emoji_keys_mem (ts : List Msg) (k0 : List Grapheme) :
    k0 ∈ (group_by_emoji ts).map Prod.fst ↔ k0 ∈ ts.map Msg.text := by
  have h := group_fold_keys_mem ts [] k0
  simpa [group_by_emoji] using h

theorem group_fold_keys_nodup : ∀ (ts : List Msg) (gs : List (List Grapheme × List Msg)),
    (gs.map Prod.fst).Nodup →
    ((ts.foldl (fun g t => group_insert g t.text t) gs).map Prod.fst).Nodup := by
  intro ts
  induction ts with
  | nil => intro gs h; exact h
  | cons t ts ih =>
    intro gs h
    rw [List.foldl_cons]
    apply ih
    rw [group_insert_keys]
    by_cases hmem : t.text ∈ gs.map Prod.fst
    · rw [if_pos hmem]
      exact h
    · rw [if_neg hmem]
      refine List.Nodup.append h (List.nodup_singleton _) ?_
      intro a ha hb
      rw [List.mem_singleton] at hb
      subst hb
      exact hmem ha

theorem group_by_emoji_keys_nodup (ts : List Msg) :
    ((group_by_emoji ts).map Prod.fst).Nodup :=
  group_fold_keys_nodup ts [] (by simp)

theorem entry_len_eq_glen : ∀ (gs : List (List Grapheme × List Msg)),
    (gs.map Prod.fst).Nodup →
    ∀ (k : List Grapheme) (ms : List Msg), (k, ms) ∈ gs → ms.length = glen k gs := by
  intro gs
  induction gs with
  | nil => intro _ k ms hm; exact absurd hm (List.not_mem_nil _)
  | cons e rest ih =>
    intro h k ms hm
    obtain ⟨kh, msh⟩ := e
    have hnd : kh ∉ rest.map Prod.fst ∧ (rest.map Prod.fst).Nodup := by
      rw [List.map_cons] at h
      exact List.nodup_cons.mp h
    rcases List.mem_cons.mp hm with heq | hm
    · injection heq with h1 h2
      subst h1
      subst h2
      simp [glen]
    · have hk : k ∈ rest.map Prod.fst := List.mem_map.mpr ⟨(k, ms), hm, rfl⟩
      simp only [glen]
      rw [if_neg (show kh ≠ k from fun hc => hnd.1 (by rw [hc]; exact hk))]
      exact ih hnd.2 k ms hm

theorem keys_mem_entry : ∀ (gs : List (List Grapheme × List Msg)) (k : List Grapheme),
    k ∈ gs.map Prod.fst → ∃ ms, (k, ms) ∈ gs := by
  intro gs k h
  rcases List.mem_map.mp h with ⟨⟨k1, ms⟩, he, hk⟩
  dsimp at hk
  subst hk
  exact ⟨ms, he⟩

theorem sum_map_one {α : Type} (l : List α) : (l.map (fun _ => (1 : Nat))).sum = l.length := by
  induction l with
  | nil => rfl
  | cons a l ih =>
    simp only [List.map_cons, List.sum_cons, List.length_cons, ih]
    omega

theorem pill_ref_total_append (a b : List Pill) :
    pill_ref_total (a ++ b) = pill_ref_total a + pill_ref_total b := by
  simp [pill_ref_total, List.sum_append]

theorem build_pills_length : ∀ (gs : List (List Grapheme × List Msg)),
    (build_pills gs).length =
      (gs.map (fun e => if 5 < e.2.length then 1 else e.2.length)).sum := by
  intro gs
  induction gs with
  | nil => rfl
  | cons e rest ih =>
    unfold build_pills
    rw [List.length_append, ih]
    simp only [List.map_cons, List.sum_cons]
    by_cases h : 5 < e.2.length
    · rw [if_pos h, if_pos h]
      rfl
    · rw [if_neg h, if_neg h, List.length_map]

theorem build_pills_ref : ∀ (gs : List (List Grapheme × List Msg)),
    pill_ref_total (build_pills gs) = (gs.map (fun e => e.2.length)).sum := by
  intro gs
  induction gs with
  | nil => rfl
  | cons e rest ih =>
    unfold build_pills
    rw [pill_ref_total_append, ih]
    simp only [List.map_cons, List.sum_cons]
    by_cases h : 5 < e.2.length
    · rw [if_pos h]
      simp [pill_ref_total, pill_ref]
    · rw [if_neg h]
      have hind : pill_ref_total
          (e.2.map (fun t => Pill.individual t.message_id t.text)) = e.2.length := by
        rw [pill_ref_total, List.map_map]
        have : (pill_ref ∘ fun (t : Msg) => Pill.individual t.message_id t.text) =
            (fun _ => (1 : Nat)) := by
          funext t
          rfl
        rw [this, sum_map_one]
      rw [hind]

theorem build_pills_grouped_count : ∀ (gs : List (List Grapheme × List Msg)),
    (build_pills gs).countP is_grouped =
      (gs.map (fun e => if 5 < e.2.length then 1 else 0)).sum := by
  intro gs
  induction gs with
  | nil => rfl
  | cons e rest ih =>
    unfold build_pills
    rw [List.countP_append, ih]
    simp only [List.map_cons, List.sum_cons]
    by_cases h : 5 < e.2.length
    · rw [if_pos h, if_pos h]
      rfl
    · rw [if_neg h, if_neg h, List.countP_map]
      have : (is_grouped ∘ fun (t : Msg) => Pill.individual t.message_id t.text) =
          (fun _ => false) := by
        funext t
        rfl
      rw [this]
      simp

theorem build_pills_grouped_mem : ∀ (gs : List (List Grapheme × List Msg))
    (k : List Grapheme) (ms : List Msg),
    (k, ms) ∈ gs → 5 < ms.length → Pill.grouped k ms.length ∈ build_pills gs := by
  intro gs
  induction gs with
  | nil => intro k ms hm _; exact absurd hm (List.not_mem_nil _)
  | cons e rest ih =>
    intro k ms hm hlen
    unfold build_pills
    rcases List.mem_cons.mp hm with heq | hm
    · obtain ⟨kh, msh⟩ := e
      injection heq with h1 h2
      subst h1
      subst h2
      refine List.mem_append_left _ ?_
      rw [if_pos hlen]
      exact List.mem_singleton_self _
    · exact List.mem_append_right _ (ih k ms hm hlen)

theorem groups_map_eq_keys_map (S : List (List Grapheme × List Msg))
    (hnd : (S.map Prod.fst).Nodup) (F : Nat → Nat) :
    S.map (fun e => F e.2.length) = (S.map Prod.fst).map (fun k => F (glen k S)) := by
  rw [List.map_map]
  apply List.map_congr_left
  intro e he
  have hlen : e.2.length = glen e.1 S :=
    entry_len_eq_glen S hnd e.1 e.2 (by simpa using he)
  simp only [Function.comp]
  rw [hlen]

/-- C2 (counterexample): for a parent with exactly 8 reactions — 6 sharing
one text and 2 with distinct texts — rendering yields 3 badges (the grouped
one plus both individual ones) and NO overflow indicator, because the cap
is 10 badges; the claimed outcome of exactly 2 badges plus a `+1 more`
indicator is false at this input. -/
theorem render_six_plus_two_counterexample :
    six_plus_two.length = 8 ∧
    (render_tapbacks six_plus_two).visible.length = 3 ∧
    (render_tapbacks six_plus_two).overflow = none ∧
    pill_ref_total (render_tapbacks six_plus_two).visible = 8 ∧
    ¬ ((render_tapbacks six_plus_two).visible.length = 2 ∧
       (render_tapbacks six_plus_two).overflow = some 1) := by
  refine ⟨by decide, by decide, by decide, by decide, by decide⟩

/-- C2 (amended): for any parent whose reaction set consists of 6 reactions
with one common text and 1 each of two other distinct texts, rendering
yields exactly 3 badges and no overflow indicator: one collapsed `×6`
grouped badge and two individual badges, with the total number of reactions
referenced across the visible badges equal to 8. -/
theorem render_six_plus_two_grouping (ts : List Msg) (e t1 t2 : List Grapheme)
    (he1 : e ≠ t1) (he2 : e ≠ t2) (h12 : t1 ≠ t2)
    (hcov : ∀ m ∈ ts, m.text = e ∨ m.text = t1 ∨ m.text = t2)
    (hce : ts.countP (fun m => decide (m.text = e)) = 6)
    (hc1 : ts.countP (fun m => decide (m.text = t1)) = 1)
    (hc2 : ts.countP (fun m => decide (m.text = t2)) = 1) :
    (render_tapbacks ts).visible.length = 3 ∧
    (render_tapbacks ts).overflow = none ∧
    pill_ref_total (render_tapbacks ts).visible = 8 ∧
    (render_tapbacks ts).visible.countP is_grouped = 1 ∧
    Pill.grouped e 6 ∈ (render_tapbacks ts).visible := by
  have hperm := sort_by_rx_perm ts
  have hndS : ((group_by_emoji (sort_by_rx ts)).map Prod.fst).Nodup :=
    group_by_emoji_keys_nodup _
  have hglen : ∀ k, glen k (group_by_emoji (sort_by_rx ts)) =
      ts.countP (fun m => decide (m.text = k)) := by
    intro k
    rw [group_by_emoji_glen]
    exact hperm.countP_eq _
  have hkeys_iff : ∀ k, k ∈ (group_by_emoji (sort_by_rx ts)).map Prod.fst ↔
      (k = e ∨ k = t1 ∨ k = t2) := by
    intro k
    rw [group_by_emoji_keys_mem]
    constructor
    · intro hk
      rcases List.mem_map.mp hk with ⟨m, hm, rfl⟩
      exact hcov m (hperm.mem_iff.mp hm)
    · have hpos : ∀ k', 0 < ts.countP (fun m => decide (m.text = k')) →
          k' ∈ (sort_by_rx ts).map Msg.text := by
        intro k' hp
        rw [← hperm.countP_eq _] at hp
        rcases List.countP_pos_iff.mp hp with ⟨m, hm, hmk⟩
        simp only [decide_eq_true_eq] at hmk
        exact List.mem_map.mpr ⟨m, hm, hmk⟩
      rintro (rfl | rfl | rfl)
      · exact hpos k (by rw [hce]; omega)
      · exact hpos k (by rw [hc1]; omega)
      · exact hpos k (by rw [hc2]; omega)
  have hnd3 : ([e, t1, t2] : List (List Grapheme)).Nodup := by
    simp [List.nodup_cons, he1, he2, h12]
  have hkeysperm : List.Perm ((group_by_emoji (sort_by_rx ts)).map Prod.fst) [e, t1, t2] :=
    (List.perm_ext_iff_of_nodup hndS hnd3).mpr (fun k => by
      rw [hkeys_iff k]
      simp [List.mem_cons])
  have hsum : ∀ F : Nat → Nat,
      ((group_by_emoji (sort_by_rx ts)).map (fun en => F en.2.length)).sum =
        F 6 + (F 1 + (F 1 + 0)) := by
    intro F
    rw [groups_map_eq_keys_map _ hndS F]
    rw [(hkeysperm.map
      (fun k => F (glen k (group_by_emoji (sort_by_rx ts))))).sum_eq]
    simp only [List.map_cons, List.map_nil, List.sum_cons, List.sum_nil]
    rw [hglen e, hglen t1, hglen t2, hce, hc1, hc2]
  have hlen3 : (build_pills (group_by_emoji (sort_by_rx ts))).length = 3 := by
    rw [build_pills_length, hsum (fun n => if 5 < n then 1 else n)]
    decide
  have href8 : pill_ref_total (build_pills (group_by_emoji (sort_by_rx ts))) = 8 := by
    rw [build_pills_ref, hsum (fun n => n)]
  have hgc1 : (build_pills (group_by_emoji (sort_by_rx ts))).countP is_grouped = 1 := by
    rw [build_pills_grouped_count, hsum (fun n => if 5 < n then 1 else 0)]
    decide
  have hmem6 : Pill.grouped e 6 ∈ build_pills (group_by_emoji (sort_by_rx ts)) := by
    have he_keys : e ∈ (group_by_emoji (sort_by_rx ts)).map Prod.fst :=
      (hkeys_iff e).mpr (Or.inl rfl)
    rcases keys_mem_entry _ e he_keys with ⟨ms, hms⟩
    have hlen : ms.length = glen e (group_by_emoji (sort_by_rx ts)) :=
      entry_len_eq_glen _ hndS e ms hms
    rw [hglen e, hce] at hlen
    have hg := build_pills_grouped_mem _ e ms hms (by omega)
    rw [hlen] at hg
    exact hg
  have hrender : render_tapbacks ts =
      { visible := build_pills (group_by_emoji (sort_by_rx ts)), overflow := none } := by
    simp only [render_tapbacks]
    rw [if_neg (by rw [hlen3]; omega)]
  rw [hrender]
  exact ⟨hlen3, rfl, href8, hgc1, hmem6⟩

/-- C2 (witness to the amended theorem): the eight concrete tapbacks of
`six_plus_two` satisfy the 6+1+1 shape and render as 3 badges, no overflow,
8 reactions referenced. -/
theorem render_six_plus_two_grouping_witness :
    (∀ m ∈ six_plus_two,
      m.text = [pict '👍'] ∨ m.text = [pict '🎉'] ∨ m.text = [pict '😀']) ∧
    ((render_tapbacks six_plus_two).visible.length = 3 ∧
     (render_tapbacks six_plus_two).overflow = none ∧
     pill_ref_total (render_tapbacks six_plus_two).visible = 8 ∧
     (render_tapbacks six_plus_two).visible.countP is_grouped = 1 ∧
     Pill.grouped [pict '👍'] 6 ∈ (render_tapbacks six_plus_two).visible) :=
  ⟨by decide,
   render_six_plus_two_grouping six_plus_two [pict '👍'] [pict '🎉'] [pict '😀']
     (by decide) (by decide) (by decide) (by decide) (by decide) (by decide) (by decide)⟩

/-- C3 (counterexample): with ten distinct early reactions and a six-member
group arriving last, eleven badges are built; the code shows ten and a
`+1 more` indicator — N counts the omitted badge, while the number of
individual reactions omitted (the collapsed group's members) is 6, so N is
not the number of reactions omitted. -/
theorem overflow_counts_badges_counterexample :
    (render_tapbacks ten_plus_six).visible.length = 10 ∧
    (render_tapbacks ten_plus_six).overflow = some 1 ∧
    pill_ref_total ((build_pills (group_by_emoji (sort_by_rx ten_plus_six))).drop 10) = 6 ∧
    (render_tapbacks ten_plus_six).overflow ≠ some 6 := by
  refine ⟨by decide, by decide, by decide, by decide⟩

/-- C3 (amended): whenever more than 10 badges are built, exactly the first
10 are shown followed by a `+N more` indicator in which N equals the number
of omitted badges (a collapsed group counts as one badge), not the number
of omitted individual reactions. -/
theorem overflow_cap_shows_ten_and_badge_remainder :
    ∀ ts : List Msg,
      10 < (build_pills (group_by_emoji (sort_by_rx ts))).length →
      (render_tapbacks ts).visible =
        (build_pills (group_by_emoji (sort_by_rx ts))).take 10 ∧
      (render_tapbacks ts).visible.length = 10 ∧
      (render_tapbacks ts).overflow =
        some ((build_pills (group_by_emoji (sort_by_rx ts))).drop 10).length := by
  intro ts h
  have hrender : render_tapbacks ts =
      { visible := (build_pills (group_by_emoji (sort_by_rx ts))).take 10
        overflow := some ((build_pills (group_by_emoji (sort_by_rx ts))).length - 10) } := by
    simp only [render_tapbacks]
    rw [if_pos h]
  rw [hrender]
  refine ⟨rfl, ?_, ?_⟩
  · dsimp only
    rw [List.length_take]
    omega
  · dsimp only
    rw [List.length_drop]

/-- C3 (witness to the amended theorem): the sixteen concrete tapbacks of
`ten_plus_six` build eleven badges, of which ten are shown with a `+1 more`
remainder counting the one omitted badge. -/
theorem overflow_cap_witness :
    10 < (build_pills (group_by_emoji (sort_by_rx ten_plus_six))).length ∧
    ((render_tapbacks ten_plus_six).visible =
       (build_pills (group_by_emoji (sort_by_rx ten_plus_six))).take 10 ∧
     (render_tapbacks ten_plus_six).visible.length = 10 ∧
     (render_tapbacks ten_plus_six).overflow =
       some ((build_pills (group_by_emoji (sort_by_rx ten_plus_six))).drop 10).length) :=
  ⟨by decide, overflow_cap_shows_ten_and_badge_remainder ten_plus_six (by decide)⟩

end RxOnly
